import Mathlib

/-!
Shallow embedding of the MuDirac eigenvalue-solver core (atom.cpp,
potential.cpp) over exact rationals.  Doubles are modelled as `ℚ` with
division-by-zero handled explicitly where the C++ code can divide by zero;
NaN-producing numerical kernels are modelled as `Option ℚ` oracles
(`none` = NaN); C++ exceptions are modelled with `Except`/`Option` error
values.  Transcendental library calls (`sqrt`, `log`, `exp`, `pow`) are
abstracted into a `RealOps` record of function parameters, since the
claims under study do not depend on their values.
-/

namespace MuDirac

/-- Physical constants from constants.hpp (CODATA 2014), exact decimal values. -/
def alpha : ℚ := 7.2973525664e-3

/-- Speed of light in atomic units, from constants.hpp. -/
def speedc : ℚ := 137.035999139

/-- The C math constant M_E as rounded to double precision. -/
def mE : ℚ := 2.718281828459045

/-- The C math constant M_PI as rounded to double precision. -/
def mPI : ℚ := 3.141592653589793

/-- Abstracted transcendental operations (C `sqrt`, `log`, `exp`, `pow`):
the embedding treats them as opaque function parameters, since no claim
depends on their numerical values. -/
structure RealOps where
  sqrt : ℚ → ℚ
  log : ℚ → ℚ
  exp : ℚ → ℚ
  powf : ℚ → ℚ → ℚ

/-- A trivial instantiation of `RealOps` used for concrete witnesses. -/
def opsId : RealOps :=
  { sqrt := fun x => x, log := fun x => x, exp := fun x => x,
    powf := fun x _ => x }

/-- Errors thrown by the C++ core: `AtomErrorCode` enum values thrown in
gridLimits, `std::runtime_error`/`std::invalid_argument` exceptions, and raw
string-literal throws (as in `throw "NODES WRONG"`). -/
inductive AtomErr where
  | unboundState
  | smallGamma
  | runtimeError (msg : String)
  | invalidArgument (msg : String)
  | strLiteral (msg : String)
  deriving DecidableEq

/-!  CoulombSpherePotential (src/lib/potential.cpp, lines 24-46).  -/

structure CoulombSpherePotential where
  Z : ℚ
  R : ℚ
  R3 : ℚ
  VR : ℚ
  deriving DecidableEq

/-- Constructor `CoulombSpherePotential::CoulombSpherePotential(Z, R)`. -/
def CoulombSpherePotential.make (Z R : ℚ) : CoulombSpherePotential :=
  { Z := Z, R := R, R3 := R ^ 3, VR := if R > 0 then -1.5 * Z / R else 0 }

/-- Method `CoulombSpherePotential::V(r)`. -/
def CoulombSpherePotential.V (p : CoulombSpherePotential) (r : ℚ) :
    Except AtomErr ℚ :=
  if r < 0 then
    .error (.invalidArgument "Negative radius not allowed for CoulombPotential")
  else if r < p.R then
    .ok (p.Z * r ^ 2 / (2 * p.R3) + p.VR)
  else
    .ok (-p.Z / r)

/-!  Trapezoidal integration (lib/integrate.cpp is not under src/).  -/

/-- Modelled from the spec: `trapzInt(dx, ys)` is trapezoidal quadrature with
uniform step `dx` ("`usteps` trapezoidal subdivisions", "trapezoidal
quadrature in log coordinates").  The implementation file lib/integrate.cpp
is not under src/. -/
def trapzInt (dx : ℚ) (ys : List ℚ) : ℚ :=
  dx * ((ys.zip ys.tail).map (fun p => (p.1 + p.2) / 2)).sum

/-- Modelled from the spec: the non-uniform-grid overload `trapzInt(xs, ys)`
(trapezoid rule over explicit abscissae), used by `DiracState::norm` through
`trapzInt(loggrid, rho)`.  lib/integrate.cpp is not under src/. -/
def trapzIntG (xs ys : List ℚ) : ℚ :=
  ((xs.zip xs.tail).zip (ys.zip ys.tail)).map
    (fun p => (p.1.2 - p.1.1) * (p.2.1 + p.2.2) / 2) |>.sum

/-!  UehlingSpherePotential (src/lib/potential.cpp, lines 59-238).
The member `uint0` is assigned only in the `R > 0` constructor branch; with
`R ≤ 0` it stays uninitialized (the class declaration in the missing header
gives it no initializer), which the embedding renders as `Option ℚ` with
`none` for the indeterminate value. -/

structure UehlingSpherePotential where
  Z : ℚ
  R : ℚ
  usteps : ℕ
  du : ℚ
  rho : ℚ
  K : ℚ
  uint0 : Option ℚ
  uker : List ℚ
  u24c2 : List ℚ
  uker_great : List ℚ
  uker_small : List ℚ

/-- Static kernel `UehlingSpherePotential::ukernel_r_greater(u, r, R)`. -/
def ukernel_r_greater (ops : RealOps) (u r R : ℚ) : ℚ :=
  ops.exp (-2 * r * speedc / u) *
    (ops.exp (2 * R * speedc / u) * (R * u * alpha / 2 - (u * alpha) ^ 2 / 4) +
     ops.exp (-2 * R * speedc / u) * (R * u * alpha / 2 + (u * alpha) ^ 2 / 4))

/-- Static kernel `UehlingSpherePotential::ukernel_r_verysmall(u, R)`. -/
def ukernel_r_verysmall (ops : RealOps) (u R : ℚ) : ℚ :=
  4 * speedc / u *
    (-ops.exp (-2 * R * speedc / u) * (0.5 * R * u * alpha + (u / (2 * speedc)) ^ 2) +
      (u / (2 * speedc)) ^ 2)

/-- Static kernel `UehlingSpherePotential::ukernel_point(u, r)`. -/
def ukernel_point (ops : RealOps) (u r : ℚ) : ℚ :=
  1 / u * ops.exp (-2 * r * speedc / u)

/-- Indexed kernel `ukernel_r_greater(int i, double r, bool rR)`, using the
precomputed member tables. -/
def UehlingSpherePotential.ukernel_r_greater_i (p : UehlingSpherePotential)
    (ops : RealOps) (i : ℕ) (r : ℚ) (rR : Bool) : ℚ :=
  if ¬rR then
    ops.exp (-2 * r * speedc / (p.du * i)) * p.uker_great.getD i 0
  else
    let u := p.du * i
    (r * u * alpha / 2 - p.u24c2.getD i 0) +
      ops.exp (-4 * r * speedc / u) * (r * u * alpha / 2 + p.u24c2.getD i 0)

/-- Indexed kernel `ukernel_r_smaller(int i, double r, bool rR)`. -/
def UehlingSpherePotential.ukernel_r_smaller_i (p : UehlingSpherePotential)
    (ops : RealOps) (i : ℕ) (r : ℚ) (rR : Bool) : ℚ :=
  let u := p.du * i
  if ¬rR then
    (ops.exp (-2 * r * speedc / u) - ops.exp (2 * r * speedc / u)) *
      p.uker_small.getD i 0
  else
    let ecru := ops.exp (-2 * r * speedc / u)
    (r * u * alpha / 2 + p.u24c2.getD i 0) * (ecru ^ 2 - 1) +
      p.u24c2.getD i 0 * (1 / ecru - ecru)

/-- Constructor `UehlingSpherePotential::UehlingSpherePotential(Z, R, usteps)`
(src/lib/potential.cpp, lines 59-100).  Tables hold `usteps` entries, entry 0
left at its zero initialisation as in the C++ loops starting at `i = 1`. -/
def UehlingSpherePotential.make (ops : RealOps) (Z R : ℚ) (usteps : ℕ) :
    UehlingSpherePotential :=
  let du : ℚ := 1 / ((usteps : ℚ) - 1)
  let uker := (List.range usteps).map fun (i : ℕ) =>
    if i = 0 then 0 else
      let u := (i : ℚ) * du
      ops.sqrt (1 - u * u) * (1 + 0.5 * u * u)
  let u24c2 := (List.range usteps).map fun (i : ℕ) =>
    if i = 0 then 0 else
      let u := (i : ℚ) * du
      (u * alpha) ^ 2 / 4
  let ukerGreat := (List.range usteps).map fun (i : ℕ) =>
    if i = 0 then 0 else
      let u := (i : ℚ) * du
      ukernel_r_greater ops u 0 R
  let ukerSmall := (List.range usteps).map fun (i : ℕ) =>
    if i = 0 then 0 else
      let u := (i : ℚ) * du
      ops.exp (-2 * R * speedc / u) * (R * u * alpha / 2 + (u * alpha) ^ 2 / 4) -
        (u * alpha) ^ 2 / 4
  if R > 0 then
    let rho := Z * 0.75 / (mPI * R ^ 3)
    let uarg := (List.range usteps).map fun (i : ℕ) =>
      if i = 0 then 0 else
        let u := (i : ℚ) * du
        ukernel_r_verysmall ops u R * uker.getD i 0
    { Z := Z, R := R, usteps := usteps, du := du, rho := rho,
      K := -2 * alpha ^ 2 / 3 * rho, uint0 := some (trapzInt du uarg),
      uker := uker, u24c2 := u24c2, uker_great := ukerGreat,
      uker_small := ukerSmall }
  else
    let rho := Z / (mPI * alpha)
    { Z := Z, R := R, usteps := usteps, du := du, rho := rho,
      K := -2 * alpha ^ 2 / 3 * rho, uint0 := none,
      uker := uker, u24c2 := u24c2, uker_great := ukerGreat,
      uker_small := ukerSmall }

/-- Method `UehlingSpherePotential::V(r)` (src/lib/potential.cpp, lines
204-238).  The static cutoff constants `exp_cutoff_high` and
`exp_cutoff_low` live in the missing header and are passed as parameters;
modelled from the spec, they are the positive thresholds of the
"near-zero and very-large radius" short circuits.  A `none` result is the
read of the indeterminate `uint0` member (possible only when `R ≤ 0`);
note the function contains no `throw` at all. -/
def UehlingSpherePotential.V (p : UehlingSpherePotential) (ops : RealOps)
    (cutHigh cutLow : ℚ) (r : ℚ) : Option ℚ :=
  if r > cutHigh * 0.5 * alpha then
    some 0
  else if r < cutLow * 0.5 * p.du * alpha then
    p.uint0.map (fun u0 => p.K * u0)
  else
    let uarg := (List.range p.usteps).map fun (i : ℕ) =>
      if i = 0 then 0 else
        let u := (i : ℚ) * p.du
        (if p.R ≤ 0 then ukernel_point ops u r
         else if r > p.R then p.ukernel_r_greater_i ops i r false
         else p.ukernel_r_greater_i ops i r true +
              p.ukernel_r_smaller_i ops i r false -
              p.ukernel_r_smaller_i ops i r true) * p.uker.getD i 0
    some (p.K / r * trapzInt p.du uarg)

/-!  DiracAtom numerical parameters (members of Atom/DiracAtom set in
atom.hpp / the constructor; the tolerances `Etol`, `Esearch`,
`max_dE_ratio`, `Edamp`, `in_eps`, `out_eps`, `maxit` are configuration
fields of the class).  `restE = mu c²` is set by the DiracAtom
constructor. -/

structure DiracAtomP where
  Z : ℚ
  mu : ℚ
  R : ℚ
  rc : ℚ
  dx : ℚ
  restE : ℚ
  Etol : ℚ
  Esearch : ℚ
  max_dE_ratio : ℚ
  Edamp : ℚ
  in_eps : ℚ
  out_eps : ℚ
  maxit : ℕ

/-- Method `DiracAtom::gridLimits(E, k)` (src/unnamed/part_003, lines
568-625).  The two `AtomErrorCode` throws guard the sign of the momentum
term `K` and of the centrifugal term `gamma` before their square roots are
taken; the later `runtime_error` throws check `out_eps`, `in_eps` and the
inner-radius/turning-point relation. -/
def DiracAtomP.gridLimits (a : DiracAtomP) (ops : RealOps) (E : ℚ) (k : ℤ) :
    Except AtomErr (ℤ × ℤ) :=
  let K : ℚ := (a.mu * speedc) ^ 2 - (E / speedc) ^ 2
  let gamma : ℚ := (k : ℚ) ^ 2 - (a.Z * alpha) ^ 2
  if K < 0 then .error .unboundState
  else if gamma < 0 then .error .smallGamma
  else
    let K := ops.sqrt K
    let gamma := ops.sqrt gamma
    let B := E - a.restE
    let r_tp := a.Z / |B|
    if a.out_eps > 1 ∨ a.out_eps < 0 then
      .error (.runtimeError
        "Invalid value for out_eps in DiracAtom; must be 0 < out_eps < 1")
    else
      let r_out := r_tp - ops.log a.out_eps / K
      if a.in_eps > 1 ∨ a.in_eps < 0 then
        .error (.runtimeError
          "Invalid value for in_eps in DiracAtom; must be 0 < in_eps < 1")
      else
        let r_in := ops.powf a.in_eps (1 / gamma) / mE * gamma / K
        if r_in > r_tp then
          .error (.runtimeError
            "Inner grid radius is too small for given atom and state; please decrease in_eps")
        else
          .ok (⌊ops.log (r_in / a.rc) / a.dx⌋, ⌈ops.log (r_out / a.rc) / a.dx⌉)

/-!  DiracState (atom.cpp).  Only the members the claims touch are kept;
`nodes` is the P node count (`nodesP` in the spec). -/

structure DState where
  E : ℚ
  k : ℤ
  nodes : ℤ
  nodesQ : ℤ
  init : Bool
  grid : List ℚ
  loggrid : List ℚ
  P : List ℚ
  Q : List ℚ
  V : List ℚ
  i0 : ℤ
  i1 : ℤ
  deriving DecidableEq

/-- Default-constructed `DiracState` (the `State` base constructor zeroes
`E` and `nodes`; vectors empty; `init` false). -/
def defaultDState : DState :=
  { E := 0, k := 0, nodes := 0, nodesQ := 0, init := false,
    grid := [], loggrid := [], P := [], Q := [], V := [], i0 := 0, i1 := 0 }

/-- Turning-point record filled by the shooting integration. -/
structure TP where
  i : ℕ
  Pi : ℚ
  Qi : ℚ
  Pe : ℚ
  Qe : ℚ
  deriving DecidableEq

def defaultTP : TP := { i := 0, Pi := 0, Qi := 0, Pe := 0, Qe := 0 }

/-- Modelled from the spec: `logGrid(rc, dx, i0, i1)` (lib/utils.cpp is not
under src/) builds the logarithmic grid `r[i] = rc·e^(i·dx)` for
`i0 ≤ i ≤ i1` together with its log coordinates. -/
def logGridR (ops : RealOps) (rc dx : ℚ) (i0 i1 : ℤ) : List ℚ :=
  (List.range (i1 - i0 + 1).toNat).map fun (j : ℕ) =>
    rc * ops.exp (((i0 + j : ℤ) : ℚ) * dx)

/-- Modelled from the spec: the log coordinates `x[i] = log(rc) + i·dx` of
`logGrid` (lib/utils.cpp is not under src/). -/
def logGridX (ops : RealOps) (rc dx : ℚ) (i0 i1 : ℤ) : List ℚ :=
  (List.range (i1 - i0 + 1).toNat).map fun (j : ℕ) =>
    ops.log rc + ((i0 + j : ℤ) : ℚ) * dx

/-- Modelled from the spec: `countNodes` (lib/utils.cpp is not under src/)
counts the sign changes (zero crossings) of a wavefunction component. -/
def countNodes (xs : List ℚ) : ℤ :=
  ((xs.zip xs.tail).filter fun p => p.1 * p.2 < 0).length

/-- Sampling of the nuclear Coulomb potential over a grid:
`Atom::getV(r)` mapped over the grid with the `CoulombSpherePotential`
built from `Z` and `R` (grid radii are positive, so the negative-radius
throw cannot fire; the embedding defaults it to 0). -/
def DiracAtomP.getVs (a : DiracAtomP) (grid : List ℚ) : List ℚ :=
  grid.map fun r =>
    match (CoulombSpherePotential.make a.Z a.R).V r with
    | .ok v => v
    | .error _ => 0

/-!  DiracAtom::convergeE (src/unnamed/part_003, lines 508-553).
The energy correction `dE` returned by `integrateState` is a numerical
black box, abstracted as an oracle `dEOf : ℚ → Option ℚ` (a function of the
trial energy; `none` models a NaN result).  The loop-local variable `E`
and the field `state.E` (set to the trial energy at the top of each
iteration) are threaded explicitly; the `Bool` in the result records
whether the converged exit (which runs `continuify`/`findNodes`) was
taken, an observable difference in the returned state. -/

def convergeELoop (a : DiracAtomP) (dEOf : ℚ → Option ℚ) :
    ℕ → ℚ → ℚ → Except AtomErr (ℚ × Bool)
  | 0, _, stateE => .ok (stateE, false)
  | fuel + 1, E, _ =>
    match dEOf E with
    | none => .error (.runtimeError "Invalid dE value returned by integrateState")
    | some dE =>
      if |dE| < a.Etol then
        .ok (E - dE, true)
      else
        -- `abs(dE / E) > max_dE_ratio`: for E = 0 the C++ double division
        -- gives ±infinity, making the comparison true; the E = 0 disjunct
        -- reproduces that (both sides then yield dE' = 0).
        let dE' := if E = 0 ∨ |dE / E| > a.max_dE_ratio then
            |E| * a.max_dE_ratio * (if dE > 0 then 1 else -1)
          else dE
        convergeELoop a dEOf fuel (E - dE' * a.Edamp) E

/-- Method `DiracAtom::convergeE(state, tp)`: the loop entered with
`E = state.E`. -/
def DiracAtomP.convergeE (a : DiracAtomP) (dEOf : ℚ → Option ℚ) (E0 : ℚ) :
    Except AtomErr (ℚ × Bool) :=
  convergeELoop a dEOf a.maxit E0 E0

/-- The spec's sign function, used by its clamp formula
`clamp(dE) = sign(dE)·|E|·maxStepRatio`. -/
def signQ (x : ℚ) : ℚ := if 0 < x then 1 else if x < 0 then -1 else 0

/-- The spec's clamp: `clamp(dE) = sign(dE)·|E|·max_dE_ratio` if `|dE/E|`
exceeds `max_dE_ratio`, else `dE` unchanged. -/
def clampSpec (a : DiracAtomP) (E dE : ℚ) : ℚ :=
  if |dE / E| > a.max_dE_ratio then signQ dE * |E| * a.max_dE_ratio else dE

/-!  DiracAtom::convergeNodes (src/unnamed/part_003, lines 417-506).
A trial at energy `E` runs gridLimits + integrateState + continuify +
findNodes; its node count is abstracted as an oracle
`nodesOf : ℚ → Except AtomErr ℤ` (errors model the throws of gridLimits /
integrateState).  The loop state carries the two trial energies, their
previous values, the bracket, and the node counts `nl`, `nr` (locals of
the C++ function that persist across iterations and are read stale when
`El == oldEl` or `Er == oldEr`). -/

structure CNState where
  El : ℚ
  Er : ℚ
  oldEl : ℚ
  oldEr : ℚ
  minE : ℚ
  maxE : ℚ
  nl : ℤ
  nr : ℤ
  deriving DecidableEq

def convergeNodesLoop (nodesOf : ℚ → Except AtomErr ℤ) (targ : ℤ) :
    ℕ → CNState → Except AtomErr (ℚ × ℤ)
  | 0, _ =>
    .error (.runtimeError
      "convergeNodes failed to find a suitable state - maximum iterations hit")
  | fuel + 1, st =>
    match (if st.El ≠ st.oldEl then nodesOf st.El else .ok st.nl) with
    | .error e => .error e
    | .ok nl =>
      if st.El ≠ st.oldEl ∧ nl = targ then .ok (st.El, nl)
      else
        match (if st.Er ≠ st.oldEr then nodesOf st.Er else .ok st.nr) with
        | .error e => .error e
        | .ok nr =>
          if st.Er ≠ st.oldEr ∧ nr = targ then .ok (st.Er, nr)
          else
            let dl := nl - targ
            let dr := nr - targ
            if dl > 0 ∧ dr > 0 then
              convergeNodesLoop nodesOf targ fuel
                { El := (st.minE + st.El) / 2, Er := st.El,
                  oldEl := st.oldEl, oldEr := st.Er,
                  minE := st.minE, maxE := st.El, nl := nl, nr := nr }
            else if dl < 0 ∧ dr < 0 then
              convergeNodesLoop nodesOf targ fuel
                { El := st.Er, Er := (st.maxE + st.Er) / 2,
                  oldEl := st.El, oldEr := st.oldEr,
                  minE := st.Er, maxE := st.maxE, nl := nl, nr := nr }
            else if dl < 0 ∧ dr > 0 then
              convergeNodesLoop nodesOf targ fuel
                { El := (st.El + st.Er) / 2, Er := st.Er,
                  oldEl := st.El, oldEr := st.oldEr,
                  minE := st.El, maxE := st.maxE, nl := nl, nr := nr }
            else
              .error (.runtimeError
                "convergeNodes failed - higher number of nodes for lower energy")

/-- Method `DiracAtom::convergeNodes(state, tp, targ_nodes, minE, maxE)`:
trial energies start at the tertiles, `oldEl`/`oldEr` at `maxE + 1`; the
node-count locals `nl`, `nr` are uninitialized in C++ and enter as the
arbitrary parameters `nl0`, `nr0`. -/
def DiracAtomP.convergeNodes (a : DiracAtomP) (nodesOf : ℚ → Except AtomErr ℤ)
    (targ : ℤ) (minE maxE : ℚ) (nl0 nr0 : ℤ) : Except AtomErr (ℚ × ℤ) :=
  convergeNodesLoop nodesOf targ a.maxit
    { El := minE + (maxE - minE) / 3, Er := maxE - (maxE - minE) / 3,
      oldEl := maxE + 1, oldEr := maxE + 1,
      minE := minE, maxE := maxE, nl := nl0, nr := nr0 }

/-!  DiracAtom::convergeState (src/unnamed/part_003, lines 842-920).
`stateIntegrate` (boundary conditions + shooting) is a numerical black
box: for a fixed atom and `k` it is a deterministic function of the trial
energy, abstracted as `integO : ℚ → IntegOut` returning the integrated
wavefunction components, the turning point, and the suggested correction
`dE` (`none` = NaN). -/

structure IntegOut where
  P : List ℚ
  Q : List ℚ
  tp : TP
  dE : Option ℚ

/-- A fresh `DiracState(rc, dx, i0, i1)` with `E`, `k` set and the
potential sampled, as built at the top of each convergeState iteration. -/
def DiracAtomP.freshState (a : DiracAtomP) (ops : RealOps) (E : ℚ) (k : ℤ)
    (i0 i1 : ℤ) : DState :=
  let grid := logGridR ops a.rc a.dx i0 i1
  { E := E, k := k, nodes := 0, nodesQ := 0, init := false,
    grid := grid, loggrid := logGridX ops a.rc a.dx i0 i1,
    P := List.replicate grid.length 0, Q := List.replicate grid.length 0,
    V := a.getVs grid, i0 := i0, i1 := i1 }

/-- The energy-refinement loop of `convergeState` (lines 856-889).  A NaN
`dE` propagates into `E` (the clamp comparison on NaN is false and
`E - dE·Edamp` is then NaN), firing the `throw "NAN ENERGY"`; on `break`
or fuel exhaustion the last constructed state and turning point survive to
the post-processing stage. -/
def convergeStateLoop (a : DiracAtomP) (ops : RealOps) (integO : ℚ → IntegOut)
    (k : ℤ) : ℕ → ℚ → DState × TP → Except AtomErr (DState × TP)
  | 0, _, last => .ok last
  | fuel + 1, E, _ =>
    match a.gridLimits ops E k with
    | .error e => .error e
    | .ok (i0, i1) =>
      let io := integO E
      let st := { a.freshState ops E k i0 i1 with P := io.P, Q := io.Q }
      match io.dE with
      | none => .error (.strLiteral "NAN ENERGY")
      | some dE =>
        if |dE| < a.Etol then .ok (st, io.tp)
        else
          let dE' := if E = 0 ∨ |dE / E| > a.max_dE_ratio then
              |E| * a.max_dE_ratio * (if dE > 0 then 1 else -1)
            else dE
          convergeStateLoop a ops integO k fuel (E - dE' * a.Edamp) (st, io.tp)

/-- Post-loop processing of `convergeState` (lines 891-919): rescale the
outward branch by `tp.Pi/tp.Pe` from the turning point, normalize by the
state norm, count the nodes of `P` and `Q`, and reject the state with
`throw "NODES WRONG"` unless `Qn - Pn` equals the boolean
`R > state.grid[0]` converted to an integer.  The node-count check and
the field updates are factored into `convergeStatePostCore`, applied to
the rescaled, normalized components. -/
def convergeStatePostCore (a : DiracAtomP) (st : DState) (P2 Q2 : List ℚ) :
    Except AtomErr DState :=
  let Pn := countNodes P2
  let Qn := countNodes Q2
  if Qn - Pn ≠ (if a.R > st.grid.headD 0 then 1 else 0) then
    .error (.strLiteral "NODES WRONG")
  else
    .ok { st with P := P2, Q := Q2, nodes := Pn, nodesQ := Qn, init := true }

def convergeStatePost (a : DiracAtomP) (ops : RealOps) (st : DState) (tp : TP) :
    Except AtomErr DState :=
  let f := tp.Pi / tp.Pe
  let P1 := st.P.mapIdx fun j x => if tp.i ≤ j then x * f else x
  let Q1 := st.Q.mapIdx fun j x => if tp.i ≤ j then x * f else x
  let rho := (P1.zip (Q1.zip st.grid)).map fun p =>
    (p.1 ^ 2 + p.2.1 ^ 2) * p.2.2
  let nrm := ops.sqrt (trapzIntG st.loggrid rho)
  convergeStatePostCore a st (P1.map (· / nrm)) (Q1.map (· / nrm))

/-- Method `DiracAtom::convergeState(E0, k)`. -/
def DiracAtomP.convergeState (a : DiracAtomP) (ops : RealOps)
    (integO : ℚ → IntegOut) (E0 : ℚ) (k : ℤ) : Except AtomErr DState :=
  match convergeStateLoop a ops integO k a.maxit E0 (defaultDState, defaultTP) with
  | .error e => .error e
  | .ok (st, tp) => convergeStatePost a ops st tp

/-!  Quantum-number conversions (lib/utils.cpp is not under src/). -/

/-- Modelled from the spec: `qnumDirac2Schro(k, l, s)` inverts the map
`k = l` (when `s` and `l > 0`) else `k = -l-1` used by calcState: the
orbital number is `l = k` for `k > 0`, else `-k-1`. -/
def qnumDirac2Schro_l (k : ℤ) : ℤ := if k > 0 then k else -k - 1

/-- Modelled from the spec: the spin flag recovered by `qnumDirac2Schro`,
`s = (k > 0)`. -/
def qnumDirac2Schro_s (k : ℤ) : Bool := k > 0

/-- Modelled from the spec: `qnumNodes2Principal(nodes, l, n)` gives
`n = nodes + l + 1` ("for any converged state, `nodesP = n−l−1`
exactly"). -/
def qnumNodes2Principal (nodes l : ℤ) : ℤ := nodes + l + 1

/-- Method `DiracState::getl()`. -/
def DState.getl (st : DState) : ℤ := qnumDirac2Schro_l st.k

/-- Method `DiracState::getn()`: the principal quantum number derived from
the P node count and `l`. -/
def DState.getn (st : DState) : ℤ := qnumNodes2Principal st.nodes st.getl

/-- The `DiracState` copy constructor (lines 116-127): sets `init = true`
and copies `nodes`, `E`, `k`, the grids, `Q` and `P` (but neither `nodesQ`
nor `V`). -/
def copyDState (s : DState) : DState :=
  { E := s.E, k := s.k, nodes := s.nodes, nodesQ := 0, init := true,
    grid := s.grid, loggrid := s.loggrid, P := s.P, Q := s.Q, V := [],
    i0 := s.i0, i1 := s.i1 }

/-!  The state cache `map<tuple<int, int, bool>, DiracState> states`,
modelled as an association list keyed by `(n, l, s)`.  `mapSubscript` is
`operator[]`: it default-inserts a `DiracState()` when the key is
absent. -/

abbrev QKey := ℤ × ℤ × Bool

abbrev StateMap := List (QKey × DState)

def mapFind (m : StateMap) (key : QKey) : Option DState :=
  (m.find? fun kv => kv.1 == key).map (·.2)

/-- `states[key]` as an rvalue read: returns the mapped state, inserting a
default-initialized one first when the key is absent (C++ `std::map`
subscript semantics). -/
def mapSubscript (m : StateMap) (key : QKey) : DState × StateMap :=
  match mapFind m key with
  | some v => (v, m)
  | none => (defaultDState, m ++ [(key, defaultDState)])

/-- `states[key] = v`: overwrite-or-insert (replace the unique existing
binding, else append). -/
def mapStore (m : StateMap) (key : QKey) (v : DState) : StateMap :=
  match m with
  | [] => [(key, v)]
  | kv :: rest => if kv.1 == key then (key, v) :: rest else kv :: mapStore rest key v

/-!  DiracAtom::calcState / getState (src/unnamed/part_003, lines 935-981
and 1017-1029).  `convergeState` enters as the oracle
`conv : ℚ → ℤ → Except AtomErr DState` (guess energy and `k` to state or
thrown error) and the external `hydrogenicDiracEnergy(Z, mu, n, k)` as
`hydE`; `V0` is the value of `V.V(0)`; the search-direction local `dnode`
is read without ever being assigned in C++ and enters as an arbitrary
parameter. -/

def calcStateLoop (conv : ℚ → ℤ → Except AtomErr DState) (a : DiracAtomP)
    (dnode : ℤ) (n l : ℤ) (s : Bool) (k : ℤ) :
    ℕ → ℚ → DState → StateMap → Option AtomErr × StateMap
  | 0, _, st, m => (none, mapStore m (n, l, s) st)
  | fuel + 1, E0, _, m =>
    match conv E0 k with
    | .error e => (some e, m)
    | .ok st =>
      if st.getn = n then (none, mapStore m (n, l, s) st)
      else
        let m2 := mapStore m (st.getn, l, s) st
        calcStateLoop conv a dnode n l s k fuel
          (if dnode > 0 then E0 / a.Esearch else E0 * a.Esearch) st m2

/-- Method `DiracAtom::calcState(n, l, s, force)`.  Note the final
`states[make_tuple(n, l, s)] = state` after the loop runs on the break
path and on the exhaustion path alike (folded into `calcStateLoop`), and
the presence check `!force && states[key].init` evaluates the map
subscript only when `force` is false. -/
def DiracAtomP.calcState (a : DiracAtomP) (conv : ℚ → ℤ → Except AtomErr DState)
    (hydE : ℤ → ℤ → ℚ) (V0 : ℚ) (dnode : ℤ) (n l : ℤ) (s : Bool)
    (force : Bool) (m : StateMap) : Option AtomErr × StateMap :=
  let k : ℤ := if s ∧ l > 0 then l else -l - 1
  let check : Bool × StateMap :=
    if force then (false, m)
    else
      let p := mapSubscript m (n, l, s)
      (p.1.init, p.2)
  if check.1 then (none, check.2)
  else
    let E0 := hydE n k
    let E1 := if a.R > 0 ∧ E0 - a.restE < V0 then V0 + a.restE + 0.1 else E0
    calcStateLoop conv a dnode n l s k a.maxit E1 defaultDState check.2

/-- Method `DiracAtom::getState(n, l, s)`: run `calcState`, reread the
cache through `operator[]`, throw `"MAXIT REACHED"` when the entry is not
initialized, else return a copy (built by the copy constructor). -/
def DiracAtomP.getState (a : DiracAtomP) (conv : ℚ → ℤ → Except AtomErr DState)
    (hydE : ℤ → ℤ → ℚ) (V0 : ℚ) (dnode : ℤ) (n l : ℤ) (s : Bool)
    (m : StateMap) : Except AtomErr DState × StateMap :=
  match a.calcState conv hydE V0 dnode n l s false m with
  | (some e, m1) => (.error e, m1)
  | (none, m1) =>
    let p := mapSubscript m1 (n, l, s)
    if ¬p.1.init then (.error (.strLiteral "MAXIT REACHED"), p.2)
    else (.ok (copyDState p.1), p.2)

/-- Method `DiracAtom::energyLimits(nodes, k)` (lines 365-402): scan every
cached state sharing `(l, s)`, raising the lower bound with states of
lower-or-equal principal number and lowering the upper bound with the
rest; the absolute floor is `max(V(0) + restE, -restE)`, the ceiling
`restE`. -/
def DiracAtomP.energyLimits (a : DiracAtomP) (V0 : ℚ) (nodes k : ℤ)
    (m : StateMap) : ℚ × ℚ :=
  let l := qnumDirac2Schro_l k
  let s := qnumDirac2Schro_s k
  let n := qnumNodes2Principal nodes l
  m.foldl
    (fun acc kv =>
      if kv.1.2.1 = l ∧ kv.1.2.2 = s then
        if kv.1.1 ≤ n then (max acc.1 kv.2.E, acc.2)
        else (acc.1, min acc.2 kv.2.E)
      else acc)
    (max (V0 + a.restE) (-a.restE), a.restE)

/-!  Claim theorems.  -/

/-- C7: for every radius `r ≥ 0` the sphere Coulomb potential returns
`Z·r²/(2R³) − 1.5·Z/R` when `r < R` and `−Z/r` when `r ≥ R`; the two
branch expressions coincide at `r = R` (continuity); and for every `r < 0`
evaluation fails with an error instead of returning a value. -/
theorem C7_coulomb_sphere_V (Z R r : ℚ) :
    (0 ≤ r → r < R →
      (CoulombSpherePotential.make Z R).V r =
        .ok (Z * r ^ 2 / (2 * R ^ 3) - 1.5 * Z / R)) ∧
    (0 ≤ r → R ≤ r →
      (CoulombSpherePotential.make Z R).V r = .ok (-Z / r)) ∧
    (0 < R →
      Z * R ^ 2 / (2 * R ^ 3) - 1.5 * Z / R = -Z / R ∧
      (CoulombSpherePotential.make Z R).V R = .ok (-Z / R)) ∧
    (r < 0 →
      (CoulombSpherePotential.make Z R).V r =
        .error (.invalidArgument "Negative radius not allowed for CoulombPotential")) := by
  refine ⟨?_, ?_, ?_, ?_⟩
  · intro h0 hR
    have hRpos : R > 0 := lt_of_le_of_lt h0 hR
    simp only [CoulombSpherePotential.V, CoulombSpherePotential.make,
      if_pos hRpos, if_neg (not_lt.mpr h0), if_pos hR]
    congr 1
    ring
  · intro h0 hR
    simp only [CoulombSpherePotential.V, CoulombSpherePotential.make,
      if_neg (not_lt.mpr h0), if_neg (not_lt.mpr hR)]
  · intro hRpos
    constructor
    · have hR : R ≠ 0 := ne_of_gt hRpos
      field_simp
      ring
    · simp only [CoulombSpherePotential.V, CoulombSpherePotential.make,
        if_neg (not_lt.mpr (le_of_lt hRpos)), if_neg (lt_irrefl R)]
  · intro hneg
    simp only [CoulombSpherePotential.V, if_pos hneg]

/-- Witness for C7 at `Z = 1`, `R = 2`, `r = 1` (inner branch) and `r = 3`
(outer branch). -/
theorem C7_coulomb_sphere_V_witness :
    (CoulombSpherePotential.make 1 2).V 1 =
      .ok (1 * 1 ^ 2 / (2 * 2 ^ 3) - 1.5 * 1 / 2) ∧
    (CoulombSpherePotential.make 1 2).V 3 = .ok (-1 / 3) ∧
    (CoulombSpherePotential.make 1 2).V (-1) =
      .error (.invalidArgument "Negative radius not allowed for CoulombPotential") :=
  ⟨(C7_coulomb_sphere_V 1 2 1).1 (by norm_num) (by norm_num),
   (C7_coulomb_sphere_V 1 2 3).2.1 (by norm_num) (by norm_num),
   (C7_coulomb_sphere_V 1 2 (-1)).2.2.2 (by norm_num)⟩

/-- A concrete atom with `Z = 138` for the C4 counterexample: at `k = ±1`
the centrifugal term `γ² = k² − (Z·α)²` is negative. -/
def atomZ138 : DiracAtomP :=
  { Z := 138, mu := 1, R := -1, rc := 1, dx := 1, restE := speedc ^ 2,
    Etol := 1e-10, Esearch := 1.2, max_dE_ratio := 0.1, Edamp := 0.5,
    in_eps := 1e-5, out_eps := 1e-10, maxit := 100 }

/-- C4 counterexample: at `Z = 138`, `k = 1`, `E = 2·c²` both the momentum
term `K²` and the centrifugal term `γ²` are negative; the code raises
`UnboundState` (checked first), not `SmallGamma`, although `γ² < 0` — so
"fails with BoundaryError(SmallGamma) exactly when the centrifugal term is
negative" is false. -/
theorem C4_counterexample :
    atomZ138.gridLimits opsId (2 * speedc ^ 2) 1 = .error .unboundState ∧
    atomZ138.gridLimits opsId (2 * speedc ^ 2) 1 ≠ .error .smallGamma ∧
    ((1 : ℚ) ^ 2 - (atomZ138.Z * alpha) ^ 2 < 0) ∧
    ((atomZ138.mu * speedc) ^ 2 - (2 * speedc ^ 2 / speedc) ^ 2 < 0) := by
  have hK : (atomZ138.mu * speedc) ^ 2 - (2 * speedc ^ 2 / speedc) ^ 2 < 0 := by
    norm_num [atomZ138, speedc]
  have hres : atomZ138.gridLimits opsId (2 * speedc ^ 2) 1 = .error .unboundState := by
    unfold DiracAtomP.gridLimits
    rw [if_pos hK]
  refine ⟨hres, by rw [hres]; simp, by norm_num [atomZ138, alpha], hK⟩

/-- C4 (amended): `gridLimits(E, k)` fails with `UnboundState` exactly when
the momentum term `K² = (mu·c)² − (E/c)²` is strictly negative
(equivalently `|E| > restE`, not merely `E` outside the open interval
`(−restE, restE)`), and with `SmallGamma` exactly when `K² ≥ 0` and the
centrifugal term `γ² = k² − (Z·α)²` is strictly negative (when both terms
are negative, `UnboundState` wins); when both terms are non-negative
neither of the two errors is raised. -/
theorem C4_gridLimits_errors (a : DiracAtomP) (ops : RealOps) (E : ℚ) (k : ℤ) :
    (a.gridLimits ops E k = .error .unboundState ↔
      (a.mu * speedc) ^ 2 - (E / speedc) ^ 2 < 0) ∧
    (a.gridLimits ops E k = .error .smallGamma ↔
      (0 ≤ (a.mu * speedc) ^ 2 - (E / speedc) ^ 2 ∧
        (k : ℚ) ^ 2 - (a.Z * alpha) ^ 2 < 0)) := by
  by_cases hK : (a.mu * speedc) ^ 2 - (E / speedc) ^ 2 < 0
  · have hres : a.gridLimits ops E k = .error .unboundState := by
      unfold DiracAtomP.gridLimits
      rw [if_pos hK]
    refine ⟨⟨fun _ => hK, fun _ => hres⟩,
      ⟨fun h => ?_, fun h => absurd hK (not_lt.mpr h.1)⟩⟩
    rw [hres] at h
    simp at h
  · by_cases hG : (k : ℚ) ^ 2 - (a.Z * alpha) ^ 2 < 0
    · have hres : a.gridLimits ops E k = .error .smallGamma := by
        unfold DiracAtomP.gridLimits
        rw [if_neg hK, if_pos hG]
      refine ⟨⟨fun h => ?_, fun h => absurd h hK⟩,
        ⟨fun _ => ⟨not_lt.mp hK, hG⟩, fun _ => hres⟩⟩
      rw [hres] at h
      simp at h
    · have hne : a.gridLimits ops E k ≠ .error .unboundState ∧
          a.gridLimits ops E k ≠ .error .smallGamma := by
        unfold DiracAtomP.gridLimits
        rw [if_neg hK, if_neg hG]
        split_ifs <;> try simp
        split_ifs <;> simp
      exact ⟨⟨fun h => absurd h hne.1, fun h => absurd h hK⟩,
        ⟨fun h => absurd h hne.2, fun h => absurd h.2 hG⟩⟩

/-- A small concrete atom used by several witnesses: unit charge and mass,
point nucleus, tolerances `Etol = 1/10`, `max_dE_ratio = 1/2`, `Edamp = 1`,
single-iteration budget. -/
def atomSimple : DiracAtomP :=
  { Z := 1, mu := 1, R := -1, rc := 1, dx := 1, restE := speedc * speedc,
    Etol := 1 / 10, Esearch := 2, max_dE_ratio := 1 / 2, Edamp := 1,
    in_eps := 1 / 2, out_eps := 1 / 2, maxit := 1 }

/-- C3 counterexample: with a one-iteration budget and a correction oracle
returning the finite value `dE = 1` (never below `Etol = 1/10`), `convergeE`
exhausts its budget and returns normally (`Except.ok`) with the unconverged
state left at the last trial energy — it does not raise a
`ConvergenceError`. -/
theorem C3_counterexample :
    atomSimple.convergeE (fun _ => some 1) 1 = .ok (1, false) := by
  show convergeELoop atomSimple (fun _ => some 1) 1 1 1 = .ok (1, false)
  simp [convergeELoop, atomSimple]
  norm_num

/-- C3 (amended): the energy-refinement loop fails fatally (with the
`runtime_error` on an invalid `dE`) when the computed correction is NaN;
but when the iteration budget is exhausted without `|dE| < Etol`, it
returns normally (`Except.ok`) with the state left at the last trial
energy and without the converged-exit post-processing — no
`ConvergenceError` is raised on exhaustion. -/
theorem C3_convergeE_failure_modes (a : DiracAtomP) (dEOf : ℚ → Option ℚ)
    (fuel : ℕ) (E stateE : ℚ) :
    (dEOf E = none →
      convergeELoop a dEOf (fuel + 1) E stateE =
        .error (.runtimeError "Invalid dE value returned by integrateState")) ∧
    convergeELoop a dEOf 0 E stateE = .ok (stateE, false) := by
  constructor
  · intro h
    simp [convergeELoop, h]
  · rfl

/-- Witness for C3's amended statement: a NaN correction at fuel 1 errors;
fuel 0 returns the incoming state. -/
theorem C3_convergeE_failure_modes_witness :
    convergeELoop atomSimple (fun _ => none) 1 1 1 =
      .error (.runtimeError "Invalid dE value returned by integrateState") ∧
    convergeELoop atomSimple (fun _ => none) 0 2 3 = .ok (3, false) :=
  ⟨(C3_convergeE_failure_modes atomSimple (fun _ => none) 0 1 1).1 rfl,
   (C3_convergeE_failure_modes atomSimple (fun _ => none) 0 2 3).2⟩

/-- C5: in every refinement iteration whose correction misses tolerance the
energy is updated as `E ← E − Edamp·clamp(dE)` with the spec's clamp
(`sign(dE)·|E|·max_dE_ratio` when `|dE/E|` exceeds `max_dE_ratio`, else
`dE`), the state's stored energy becoming the trial energy; and the
iteration terminates successfully as soon as `|dE| < Etol`, with
`E ← E − dE`. -/
theorem C5_convergeE_update (a : DiracAtomP) (dEOf : ℚ → Option ℚ)
    (fuel : ℕ) (E stateE dE : ℚ) (hEtol : 0 < a.Etol)
    (hdE : dEOf E = some dE) :
    (|dE| < a.Etol →
      convergeELoop a dEOf (fuel + 1) E stateE = .ok (E - dE, true)) ∧
    (¬ |dE| < a.Etol → E ≠ 0 →
      convergeELoop a dEOf (fuel + 1) E stateE =
        convergeELoop a dEOf fuel (E - a.Edamp * clampSpec a E dE) E) := by
  constructor
  · intro htol
    simp [convergeELoop, hdE, htol]
  · intro htol hE
    have hdE0 : dE ≠ 0 := by
      intro h
      exact htol (h ▸ by simpa using hEtol)
    have harg : (if E = 0 ∨ |dE / E| > a.max_dE_ratio then
        |E| * a.max_dE_ratio * (if dE > 0 then 1 else -1) else dE) =
        clampSpec a E dE := by
      rw [clampSpec]
      rcases lt_trichotomy dE 0 with hlt | heq | hgt
      · simp only [if_neg (not_lt.mpr (le_of_lt hlt)), signQ,
          if_neg (not_lt.mpr (le_of_lt hlt)), if_pos hlt]
        by_cases hc : |dE / E| > a.max_dE_ratio
        · rw [if_pos (Or.inr hc), if_pos hc]
          ring
        · rw [if_neg ?_, if_neg hc]
          rintro (h0 | hgt2)
          · exact hE h0
          · exact hc hgt2
      · exact absurd heq hdE0
      · simp only [signQ, if_pos hgt]
        by_cases hc : |dE / E| > a.max_dE_ratio
        · rw [if_pos (Or.inr hc), if_pos hc]
          ring
        · rw [if_neg ?_, if_neg hc]
          rintro (h0 | hgt2)
          · exact hE h0
          · exact hc hgt2
    simp only [convergeELoop, hdE, if_neg htol]
    rw [harg, mul_comm (clampSpec a E dE) a.Edamp]

/-- Witness for C5 at a concrete atom: an in-tolerance correction
terminates with `E − dE`, and an out-of-tolerance one recurses with the
clamped, damped update. -/
theorem C5_convergeE_update_witness :
    convergeELoop atomSimple (fun _ => some (1 / 100)) 1 1 1 =
      .ok (1 - 1 / 100, true) ∧
    convergeELoop atomSimple (fun _ => some 1) 1 1 1 =
      convergeELoop atomSimple (fun _ => some 1) 0
        (1 - atomSimple.Edamp * clampSpec atomSimple 1 1) 1 :=
  ⟨(C5_convergeE_update atomSimple (fun _ => some (1 / 100)) 0 1 1 (1 / 100)
      (by norm_num [atomSimple]) rfl).1
      (by rw [abs_of_pos] <;> norm_num [atomSimple]),
   (C5_convergeE_update atomSimple (fun _ => some 1) 0 1 1 1
      (by norm_num [atomSimple]) rfl).2
      (by rw [abs_of_pos] <;> norm_num [atomSimple]) (by norm_num)⟩

/-- C6: in the node-bracketing search, if the (effective) node count of
the lower-energy trial exceeds the target while that of the higher-energy
trial falls short (node count decreasing with increasing energy), the
iteration throws the fatal nodal-theorem error; and exhausting the
iteration budget without either trial reaching the target throws the
maximum-iterations `ConvergenceError`. -/
theorem C6_convergeNodes_errors (nodesOf : ℚ → Except AtomErr ℤ) (targ : ℤ)
    (fuel : ℕ) (st : CNState) (nl nr : ℤ)
    (hl : (if st.El ≠ st.oldEl then nodesOf st.El else .ok st.nl) = .ok nl)
    (hr : (if st.Er ≠ st.oldEr then nodesOf st.Er else .ok st.nr) = .ok nr)
    (hnl : nl > targ) (hnr : nr < targ) :
    convergeNodesLoop nodesOf targ (fuel + 1) st =
      .error (.runtimeError
        "convergeNodes failed - higher number of nodes for lower energy") ∧
    ∀ st2 : CNState, convergeNodesLoop nodesOf targ 0 st2 =
      .error (.runtimeError
        "convergeNodes failed to find a suitable state - maximum iterations hit") := by
  refine ⟨?_, fun _ => rfl⟩
  have hnl2 : ¬(st.El ≠ st.oldEl ∧ nl = targ) := by
    rintro ⟨_, h⟩
    omega
  have hnr2 : ¬(st.Er ≠ st.oldEr ∧ nr = targ) := by
    rintro ⟨_, h⟩
    omega
  simp only [convergeNodesLoop, hl, hr, if_neg hnl2, if_neg hnr2]
  rw [if_neg (by omega), if_neg (by omega), if_neg (by omega)]

/-- Witness for C6 at a concrete configuration: a constant oracle giving 2
nodes at the low trial and 0 at the high trial with target 1. -/
theorem C6_convergeNodes_errors_witness :
    convergeNodesLoop
      (fun E => .ok (if E ≤ 1 then 2 else 0)) 1 1
      { El := 1, Er := 2, oldEl := 5, oldEr := 5, minE := 0, maxE := 4,
        nl := 0, nr := 0 } =
      .error (.runtimeError
        "convergeNodes failed - higher number of nodes for lower energy") ∧
    convergeNodesLoop (fun E => .ok (if E ≤ 1 then 2 else 0)) 1 0
      { El := 1, Er := 2, oldEl := 5, oldEr := 5, minE := 0, maxE := 4,
        nl := 0, nr := 0 } =
      .error (.runtimeError
        "convergeNodes failed to find a suitable state - maximum iterations hit") := by
  have h := C6_convergeNodes_errors
    (fun E => .ok (if E ≤ 1 then 2 else 0)) 1 0
    { El := 1, Er := 2, oldEl := 5, oldEr := 5, minE := 0, maxE := 4,
      nl := 0, nr := 0 } 2 0
    (by norm_num) (by norm_num) (by norm_num) (by norm_num)
  exact ⟨h.1, h.2 _⟩

/-- C2: every state returned by `convergeState` satisfies
`nodesQ − nodesP ∈ {0, 1}`, the difference being 1 exactly when the
nucleus is finite and the innermost grid point lies inside the nuclear
radius (`R > r[i0]`), else 0; a state violating the relation is rejected
with the `"NODES WRONG"` error rather than returned.  Stated over the
post-processing stage and over the whole of `convergeState`, for every
choice of the abstracted numerical oracles. -/
theorem C2_convergeState_node_relation (a : DiracAtomP) (ops : RealOps)
    (integO : ℚ → IntegOut) (E0 : ℚ) (k : ℤ) (st : DState) (tp : TP) :
    (convergeStatePost a ops st tp = .error (.strLiteral "NODES WRONG") ∨
      ∃ out, convergeStatePost a ops st tp = .ok out ∧
        out.nodesQ - out.nodes = (if a.R > out.grid.headD 0 then 1 else 0) ∧
        (out.nodesQ - out.nodes = 0 ∨ out.nodesQ - out.nodes = 1)) ∧
    ((∃ e, a.convergeState ops integO E0 k = .error e) ∨
      ∃ out, a.convergeState ops integO E0 k = .ok out ∧
        out.nodesQ - out.nodes = (if a.R > out.grid.headD 0 then 1 else 0) ∧
        (out.nodesQ - out.nodes = 0 ∨ out.nodesQ - out.nodes = 1)) := by
  have hcore : ∀ (st : DState) (P2 Q2 : List ℚ),
      convergeStatePostCore a st P2 Q2 = .error (.strLiteral "NODES WRONG") ∨
      ∃ out, convergeStatePostCore a st P2 Q2 = .ok out ∧
        out.nodesQ - out.nodes = (if a.R > out.grid.headD 0 then 1 else 0) ∧
        (out.nodesQ - out.nodes = 0 ∨ out.nodesQ - out.nodes = 1) := by
    intro st P2 Q2
    unfold convergeStatePostCore
    by_cases hR : a.R > st.grid.headD 0
    · rw [if_pos hR]
      by_cases hne : countNodes Q2 - countNodes P2 ≠ 1
      · rw [if_pos hne]
        exact Or.inl rfl
      · rw [if_neg hne]
        have heq := not_ne_iff.mp hne
        refine Or.inr ⟨_, rfl, ?_, Or.inr heq⟩
        show countNodes Q2 - countNodes P2 = if a.R > st.grid.headD 0 then 1 else 0
        rw [if_pos hR]
        exact heq
    · rw [if_neg hR]
      by_cases hne : countNodes Q2 - countNodes P2 ≠ 0
      · rw [if_pos hne]
        exact Or.inl rfl
      · rw [if_neg hne]
        have heq := not_ne_iff.mp hne
        refine Or.inr ⟨_, rfl, ?_, Or.inl heq⟩
        show countNodes Q2 - countNodes P2 = if a.R > st.grid.headD 0 then 1 else 0
        rw [if_neg hR]
        exact heq
  have hpost : ∀ (st : DState) (tp : TP),
      convergeStatePost a ops st tp = .error (.strLiteral "NODES WRONG") ∨
      ∃ out, convergeStatePost a ops st tp = .ok out ∧
        out.nodesQ - out.nodes = (if a.R > out.grid.headD 0 then 1 else 0) ∧
        (out.nodesQ - out.nodes = 0 ∨ out.nodesQ - out.nodes = 1) := by
    intro st tp
    exact hcore st _ _
  constructor
  · exact hpost st tp
  · unfold DiracAtomP.convergeState
    cases hres : convergeStateLoop a ops integO k a.maxit E0 (defaultDState, defaultTP) with
    | error e => exact Or.inl ⟨e, rfl⟩
    | ok p =>
      obtain ⟨st1, tp1⟩ := p
      rcases hpost st1 tp1 with h | ⟨out, hout, h1, h2⟩
      · exact Or.inl ⟨_, h⟩
      · exact Or.inr ⟨out, hout, h1, h2⟩

/-!  Association-list cache lemmas shared by the calcState/getState
claims. -/

theorem mapFind_cons (kv : QKey × DState) (m : StateMap) (k : QKey) :
    mapFind (kv :: m) k = if kv.1 = k then some kv.2 else mapFind m k := by
  by_cases h : kv.1 = k
  · simp [mapFind, List.find?_cons, h]
  · simp [mapFind, List.find?_cons, h]

theorem mapFind_store_self (m : StateMap) (k : QKey) (v : DState) :
    mapFind (mapStore m k v) k = some v := by
  induction m with
  | nil => simp [mapStore, mapFind_cons]
  | cons kv rest ih =>
    rw [mapStore]
    by_cases h : kv.1 = k
    · simp [h, mapFind_cons]
    · simp [h, mapFind_cons, ih]

theorem mapFind_store_ne (m : StateMap) (k k2 : QKey) (v : DState)
    (h : k2 ≠ k) : mapFind (mapStore m k v) k2 = mapFind m k2 := by
  induction m with
  | nil => simp [mapStore, mapFind_cons, mapFind, Ne.symm h]
  | cons kv rest ih =>
    rw [mapStore]
    by_cases hk : kv.1 = k
    · simp [hk, mapFind_cons, Ne.symm h]
    · simp [hk, mapFind_cons, ih]

theorem mapFind_append_absent (m : StateMap) (k : QKey) (v : DState)
    (h : mapFind m k = none) : mapFind (m ++ [(k, v)]) k = some v := by
  induction m with
  | nil => simp [mapFind_cons, mapFind]
  | cons kv rest ih =>
    rw [mapFind_cons] at h
    by_cases hk : kv.1 = k
    · rw [if_pos hk] at h
      exact absurd h (by simp)
    · rw [if_neg hk] at h
      rw [List.cons_append, mapFind_cons, if_neg hk]
      exact ih h

theorem mapFind_mem (m : StateMap) (k : QKey) (v : DState)
    (h : mapFind m k = some v) : (k, v) ∈ m := by
  unfold mapFind at h
  cases hf : m.find? fun kv => kv.1 == k with
  | none => rw [hf] at h; simp at h
  | some kv =>
    rw [hf] at h
    simp at h
    have hmem := List.mem_of_find?_eq_some hf
    have hpred := List.find?_some hf
    have hk : kv.1 = k := by simpa using hpred
    have : kv = (k, v) := Prod.ext hk h
    exact this ▸ hmem

/-- The target key `(n, l, s)` and off-target derived keys
`(st.getn, l, s)` with `st.getn ≠ n` never collide, so the searcher's
side stores leave the target entry alone. -/
theorem calcStateLoop_error_find (conv : ℚ → ℤ → Except AtomErr DState)
    (a : DiracAtomP) (dnode : ℤ) (n l : ℤ) (s : Bool) (k : ℤ) :
    ∀ (fuel : ℕ) (E0 : ℚ) (st : DState) (m m2 : StateMap) (e : AtomErr),
      calcStateLoop conv a dnode n l s k fuel E0 st m = (some e, m2) →
      mapFind m2 (n, l, s) = mapFind m (n, l, s) := by
  intro fuel
  induction fuel with
  | zero =>
    intro E0 st m m2 e h
    simp [calcStateLoop] at h
  | succ fuel ih =>
    intro E0 st m m2 e h
    cases hc : conv E0 k with
    | error e2 =>
      simp only [calcStateLoop, hc, Prod.mk.injEq] at h
      rw [← h.2]
    | ok st2 =>
      simp only [calcStateLoop, hc] at h
      by_cases hn : st2.getn = n
      · rw [if_pos hn] at h
        simp at h
      · rw [if_neg hn] at h
        have hfind := ih _ _ _ _ _ h
        rw [hfind, mapFind_store_ne]
        intro hEq
        rw [Prod.mk.injEq] at hEq
        exact hn hEq.1.symm

theorem calcStateLoop_none_find (conv : ℚ → ℤ → Except AtomErr DState)
    (a : DiracAtomP) (dnode : ℤ) (n l : ℤ) (s : Bool) (k : ℤ) :
    ∀ (fuel : ℕ) (E0 : ℚ) (st : DState) (m m2 : StateMap),
      calcStateLoop conv a dnode n l s k fuel E0 st m = (none, m2) →
      ∃ st2, mapFind m2 (n, l, s) = some st2 := by
  intro fuel
  induction fuel with
  | zero =>
    intro E0 st m m2 h
    simp only [calcStateLoop, Prod.mk.injEq, true_and] at h
    exact ⟨st, h ▸ mapFind_store_self m (n, l, s) st⟩
  | succ fuel ih =>
    intro E0 st m m2 h
    cases hc : conv E0 k with
    | error e2 =>
      simp only [calcStateLoop, hc, Prod.mk.injEq] at h
      exact absurd h.1 (by simp)
    | ok st2 =>
      simp only [calcStateLoop, hc] at h
      by_cases hn : st2.getn = n
      · rw [if_pos hn] at h
        simp only [Prod.mk.injEq, true_and] at h
        exact ⟨st2, h ▸ mapFind_store_self m (n, l, s) st2⟩
      · rw [if_neg hn] at h
        exact ih _ _ _ _ h

/-- When the key is absent and `force` is false, `calcState` runs the
search loop on the cache already polluted by the presence check's
default insertion. -/
theorem calcState_eq_loop (a : DiracAtomP)
    (conv : ℚ → ℤ → Except AtomErr DState) (hydE : ℤ → ℤ → ℚ) (V0 : ℚ)
    (dnode : ℤ) (n l : ℤ) (s : Bool) (m : StateMap)
    (habs : mapFind m (n, l, s) = none) :
    a.calcState conv hydE V0 dnode n l s false m =
      calcStateLoop conv a dnode n l s (if s ∧ l > 0 then l else -l - 1)
        a.maxit
        (if a.R > 0 ∧ hydE n (if s ∧ l > 0 then l else -l - 1) - a.restE < V0
          then V0 + a.restE + 0.1
          else hydE n (if s ∧ l > 0 then l else -l - 1))
        defaultDState (m ++ [((n, l, s), defaultDState)]) := by
  simp [DiracAtomP.calcState, mapSubscript, habs, defaultDState]

/-- C9: the cache-presence check and cache read use map-subscript
semantics, inserting a default-initialized state (`E = 0`, `init = false`)
under the queried key when absent; a `getState` call that fails therefore
still mutates the cache, leaving an uninitialized entry under `(n, l, s)`
that later scans (the list `energyLimits` folds over) will iterate. -/
theorem C9_cache_default_insertion (a : DiracAtomP)
    (conv : ℚ → ℤ → Except AtomErr DState) (hydE : ℤ → ℤ → ℚ) (V0 : ℚ)
    (dnode : ℤ) (n l : ℤ) (s : Bool) (m : StateMap)
    (habs : mapFind m (n, l, s) = none)
    (herr : ∃ e, (a.getState conv hydE V0 dnode n l s m).1 = .error e) :
    (mapSubscript m (n, l, s)).2 = m ++ [((n, l, s), defaultDState)] ∧
    defaultDState.init = false ∧ defaultDState.E = 0 ∧
    ∃ st2, mapFind (a.getState conv hydE V0 dnode n l s m).2 (n, l, s) = some st2 ∧
      st2.init = false ∧
      ((n, l, s), st2) ∈ (a.getState conv hydE V0 dnode n l s m).2 := by
  have hm1find : mapFind (m ++ [((n, l, s), defaultDState)]) (n, l, s) =
      some defaultDState := mapFind_append_absent m (n, l, s) defaultDState habs
  refine ⟨by simp [mapSubscript, habs], rfl, rfl, ?_⟩
  obtain ⟨e, herr⟩ := herr
  have hcs := calcState_eq_loop a conv hydE V0 dnode n l s m habs
  rcases hres : calcStateLoop conv a dnode n l s
      (if s ∧ l > 0 then l else -l - 1) a.maxit
      (if a.R > 0 ∧ hydE n (if s ∧ l > 0 then l else -l - 1) - a.restE < V0
        then V0 + a.restE + 0.1
        else hydE n (if s ∧ l > 0 then l else -l - 1))
      defaultDState (m ++ [((n, l, s), defaultDState)]) with ⟨fst, m2⟩
  cases fst with
  | some e2 =>
    have hg : a.getState conv hydE V0 dnode n l s m = (.error e2, m2) := by
      simp [DiracAtomP.getState, hcs, hres]
    have hfind : mapFind m2 (n, l, s) = some defaultDState := by
      rw [calcStateLoop_error_find conv a dnode n l s _ _ _ _ _ _ _ hres]
      exact hm1find
    rw [hg]
    exact ⟨defaultDState, hfind, rfl, mapFind_mem _ _ _ hfind⟩
  | none =>
    obtain ⟨st2, hst2⟩ :=
      calcStateLoop_none_find conv a dnode n l s _ _ _ _ _ _ hres
    have hsub : mapSubscript m2 (n, l, s) = (st2, m2) := by
      simp [mapSubscript, hst2]
    by_cases hinit : st2.init
    · exfalso
      have hg : (a.getState conv hydE V0 dnode n l s m).1 = .ok (copyDState st2) := by
        simp [DiracAtomP.getState, hcs, hres, hsub, hinit]
      rw [hg] at herr
      simp at herr
    · have hg : a.getState conv hydE V0 dnode n l s m =
          (.error (.strLiteral "MAXIT REACHED"), m2) := by
        simp [DiracAtomP.getState, hcs, hres, hsub, hinit]
      rw [hg]
      exact ⟨st2, hst2, by simpa using hinit, mapFind_mem _ _ _ hst2⟩

/-- Witness for C9: a converger that always fails (UnboundState) makes
`getState(1, 0, false)` fail on an empty cache, yet the cache afterwards
holds the default entry under `(1, 0, false)`. -/
theorem C9_cache_default_insertion_witness :
    (mapSubscript [] ((1 : ℤ), (0 : ℤ), false)).2 =
      [] ++ [(((1 : ℤ), (0 : ℤ), false), defaultDState)] ∧
    defaultDState.init = false ∧ defaultDState.E = 0 ∧
    ∃ st2,
      mapFind (atomSimple.getState (fun _ _ => .error .unboundState)
        (fun _ _ => -1) 0 0 1 0 false []).2 (1, 0, false) = some st2 ∧
      st2.init = false ∧
      ((1, 0, false), st2) ∈ (atomSimple.getState (fun _ _ => .error .unboundState)
        (fun _ _ => -1) 0 0 1 0 false []).2 :=
  C9_cache_default_insertion atomSimple (fun _ _ => .error .unboundState)
    (fun _ _ => -1) 0 0 1 0 false [] rfl ⟨.unboundState, rfl⟩

/-- A converged but off-target state (k = −1 so l = 0, one P node, hence
derived principal number 2) used as the constant output of the
convergeState oracle in the C1 evaluation. -/
def offTargetState : DState :=
  { E := 5, k := -1, nodes := 1, nodesQ := 1, init := true,
    grid := [1], loggrid := [0], P := [1], Q := [1], V := [0],
    i0 := 0, i1 := 0 }

/-- C1: evaluation of `getState(1, 0, false)` when every convergeState
attempt yields a state with derived principal number 2 and the iteration
budget (here 1) is exhausted: `calcState`'s unconditional post-loop store
caches the off-target state (`init = true`) under the requested key
`(1, 0, false)`, and `getState` returns it without error — its derived
principal number is 2, not the requested 1, so the dead
`"MAXIT REACHED"` guard never fires and a wrong-`n` state is silently
returned. -/
theorem C1_getState_returns_wrong_n :
    (atomSimple.getState (fun _ _ => .ok offTargetState) (fun _ _ => -1) 0 0
        1 0 false []).1 = .ok (copyDState offTargetState) ∧
    (copyDState offTargetState).getn = 2 ∧
    ((copyDState offTargetState).getn ≠ 1) ∧
    mapFind (atomSimple.getState (fun _ _ => .ok offTargetState)
        (fun _ _ => -1) 0 0 1 0 false []).2 (1, 0, false) =
      some offTargetState := by
  refine ⟨rfl, rfl, by decide, rfl⟩

/-- C8 counterexample: a concrete finite-nucleus Uehling potential
(`Z = 1`, `R = 1`, `usteps = 3`, positive cutoff constants) evaluated at
the negative radius `r = −1` returns a value — the small-radius limiting
constant `K·uint0` — instead of failing; indeed `V` contains no throw at
all. -/
theorem UehlingSpherePotential.du_make (ops : RealOps) (Z R : ℚ)
    (usteps : ℕ) :
    (UehlingSpherePotential.make ops Z R usteps).du = 1 / ((usteps : ℚ) - 1) := by
  simp only [UehlingSpherePotential.make]
  by_cases hR : R > 0
  · rw [if_pos hR]
  · rw [if_neg hR]

theorem C8_counterexample :
    (UehlingSpherePotential.make opsId 1 1 3).V opsId 100 1 (-1) =
      ((UehlingSpherePotential.make opsId 1 1 3).uint0.map
        (fun u0 => (UehlingSpherePotential.make opsId 1 1 3).K * u0)) ∧
    (((UehlingSpherePotential.make opsId 1 1 3).V opsId 100 1 (-1)).isSome = true) := by
  have hbranch : (UehlingSpherePotential.make opsId 1 1 3).V opsId 100 1 (-1) =
      ((UehlingSpherePotential.make opsId 1 1 3).uint0.map
        (fun u0 => (UehlingSpherePotential.make opsId 1 1 3).K * u0)) := by
    unfold UehlingSpherePotential.V
    rw [if_neg (by norm_num [alpha]), if_pos (by
      rw [UehlingSpherePotential.du_make]
      norm_num [alpha])]
  have hu : ∃ q, (UehlingSpherePotential.make opsId 1 1 3).uint0 = some q := by
    simp only [UehlingSpherePotential.make]
    rw [if_pos (by norm_num : (1 : ℚ) > 0)]
    exact ⟨_, rfl⟩
  obtain ⟨q, hq⟩ := hu
  refine ⟨hbranch, ?_⟩
  rw [hbranch, hq]
  rfl

/-- C8 (amended): evaluation of the Uehling potential at a negative radius
`r < 0` does not fail: whenever the cutoff constants make the short-circuit
thresholds non-negative (they are positive in the source), any `r < 0`
falls into the small-radius branch and `V` returns the precomputed
limiting value `K·uint0` (a defined value whenever `uint0` was computed,
i.e. for a finite nucleus); no error is raised. -/
theorem C8_uehling_negative_radius (ops : RealOps) (p : UehlingSpherePotential)
    (cutHigh cutLow r : ℚ) (hr : r < 0)
    (hhi : 0 ≤ cutHigh * 0.5 * alpha)
    (hlo : 0 ≤ cutLow * 0.5 * p.du * alpha) :
    p.V ops cutHigh cutLow r = p.uint0.map (fun u0 => p.K * u0) ∧
    (p.uint0.isSome = true → (p.V ops cutHigh cutLow r).isSome = true) := by
  have hbranch : p.V ops cutHigh cutLow r = p.uint0.map (fun u0 => p.K * u0) := by
    unfold UehlingSpherePotential.V
    rw [if_neg (not_lt.mpr (le_of_lt (lt_of_lt_of_le hr hhi))),
      if_pos (lt_of_lt_of_le hr hlo)]
  refine ⟨hbranch, fun hsome => ?_⟩
  rw [hbranch]
  simpa using hsome

/-- Witness for C8's amended statement at the counterexample instance. -/
theorem C8_uehling_negative_radius_witness :
    (UehlingSpherePotential.make opsId 1 1 3).V opsId 100 1 (-1) =
      ((UehlingSpherePotential.make opsId 1 1 3).uint0.map
        (fun u0 => (UehlingSpherePotential.make opsId 1 1 3).K * u0)) :=
  (C8_uehling_negative_radius opsId (UehlingSpherePotential.make opsId 1 1 3)
    100 1 (-1) (by norm_num)
    (by norm_num [alpha])
    (by rw [UehlingSpherePotential.du_make]; norm_num [alpha])).1

/-- C10: the constructor assigns `uint0` only in its `R > 0` branch, and
the small-radius short circuit of `V` returns `K·uint0`; so for any radius
below the low cutoff the short circuit yields a defined value exactly
under the precondition `R > 0`, and with `R ≤ 0` it is the read of an
indeterminate member. -/
theorem C10_uehling_uint0_precondition (ops : RealOps) (Z R : ℚ)
    (usteps : ℕ) (cutHigh cutLow r : ℚ)
    (hhib : ¬ r > cutHigh * 0.5 * alpha)
    (hlob : r < cutLow * 0.5 * (UehlingSpherePotential.make ops Z R usteps).du * alpha) :
    (0 < R → ∃ q, (UehlingSpherePotential.make ops Z R usteps).uint0 = some q) ∧
    (R ≤ 0 → (UehlingSpherePotential.make ops Z R usteps).uint0 = none) ∧
    (0 < R →
      ((UehlingSpherePotential.make ops Z R usteps).V ops cutHigh cutLow r).isSome = true) ∧
    (R ≤ 0 →
      (UehlingSpherePotential.make ops Z R usteps).V ops cutHigh cutLow r = none) := by
  have hV : (UehlingSpherePotential.make ops Z R usteps).V ops cutHigh cutLow r =
      (UehlingSpherePotential.make ops Z R usteps).uint0.map
        (fun u0 => (UehlingSpherePotential.make ops Z R usteps).K * u0) := by
    unfold UehlingSpherePotential.V
    rw [if_neg hhib, if_pos hlob]
  have hpos : 0 < R → ∃ q,
      (UehlingSpherePotential.make ops Z R usteps).uint0 = some q := by
    intro hR
    simp only [UehlingSpherePotential.make]
    rw [if_pos hR]
    exact ⟨_, rfl⟩
  have hneg : R ≤ 0 →
      (UehlingSpherePotential.make ops Z R usteps).uint0 = none := by
    intro hR
    simp only [UehlingSpherePotential.make]
    rw [if_neg (not_lt.mpr hR)]
  refine ⟨hpos, hneg, fun hR => ?_, fun hR => ?_⟩
  · obtain ⟨q, hq⟩ := hpos hR
    rw [hV, hq]
    rfl
  · rw [hV, hneg hR]
    rfl

/-- Witness for C10 at `Z = 1`, `usteps = 3`, cutoffs `100`, `1`,
`r = 1/1000`: with `R = 1` the short circuit is defined, with `R = −1` it
is the undefined read. -/
theorem C10_uehling_uint0_precondition_witness :
    (∃ q, (UehlingSpherePotential.make opsId 1 1 3).uint0 = some q) ∧
    (UehlingSpherePotential.make opsId 1 (-1) 3).uint0 = none ∧
    ((UehlingSpherePotential.make opsId 1 1 3).V opsId 100 1 (1 / 1000)).isSome = true ∧
    (UehlingSpherePotential.make opsId 1 (-1) 3).V opsId 100 1 (1 / 1000) = none := by
  have h1 := C10_uehling_uint0_precondition opsId 1 1 3 100 1 (1 / 1000)
    (by norm_num [alpha])
    (by rw [UehlingSpherePotential.du_make]; norm_num [alpha])
  have h2 := C10_uehling_uint0_precondition opsId 1 (-1) 3 100 1 (1 / 1000)
    (by norm_num [alpha])
    (by rw [UehlingSpherePotential.du_make]; norm_num [alpha])
  exact ⟨h1.1 (by norm_num), h2.2.1 (by norm_num),
    h1.2.2.1 (by norm_num), h2.2.2.2 (by norm_num)⟩

end MuDirac
